import Mathlib

/-!
Verification development for the Binance futures trading bot
(`src/base_bot.py`, `src/config.py`, `src/utils.py`,
`src/advanced/grid_strategy.py`, `src/advanced/twap.py`,
`src/advanced/oco.py`).

Prices and quantities are modelled as exact rationals (`ℚ`); Python's
`round(x, 2)` is modelled by `roundTick` below.  Gateway calls
(price fetch, open-order fetch, order placement, cancellation) are
modelled by per-cycle environments supplying an `Except`-style outcome
for each call, mirroring which `BinanceAPIException`s the source code
catches locally and which it lets propagate.  Strings are modelled by
Lean `String` with character-list based primitives so that everything
evaluates.
-/

deriving instance DecidableEq for Except

namespace BinanceBot

/-- Model of Python `round(x, 2)`: round to the nearest hundredth
(`round` on `ℚ` rounds halves up; the source rounds binary floats, which
agrees away from exact half-cent boundaries, and no statement below
depends on a half-cent tie). -/
def roundTick (q : ℚ) : ℚ := (round (100 * q) : ℤ) / 100

/-- Evaluation rule for `roundTick` (used by `norm_num`-driven
computations of concrete grid prices). -/
theorem roundTick_eval (q : ℚ) (n : ℤ) (h1 : (n : ℚ) ≤ 100 * q + 1/2)
    (h2 : 100 * q + 1/2 < n + 1) : roundTick q = (n : ℚ) / 100 := by
  rw [roundTick, round_eq, Int.floor_eq_iff.2 ⟨h1, h2⟩]

/-- `roundTick` is the identity on tick-aligned values (multiples of a
hundredth). -/
theorem roundTick_eq_self (q : ℚ) (n : ℤ) (h : 100 * q = (n : ℚ)) :
    roundTick q = q := by
  have h' : roundTick q = (n : ℚ) / 100 := by
    rw [roundTick, h, round_intCast]
  rw [h', div_eq_iff (by norm_num : (100 : ℚ) ≠ 0)]
  linarith

/-- `roundTick` is idempotent: re-rounding an already-rounded price does
not move it (the source relies on this when comparing desired grid
prices with `round(float(order price), 2)`). -/
theorem roundTick_idem (q : ℚ) : roundTick (roundTick q) = roundTick q := by
  apply roundTick_eq_self _ (round (100 * q))
  rw [roundTick]
  field_simp

/-- `roundTick` never moves a value by more than half a tick. -/
theorem abs_roundTick_sub (q : ℚ) : |roundTick q - q| ≤ 1 / 200 := by
  have h := abs_sub_round (100 * q)
  rw [roundTick]
  rw [show ((round (100 * q) : ℤ) : ℚ) / 100 - q =
        -((100 * q - round (100 * q)) / 100) by ring]
  rw [abs_neg, abs_div, show |(100 : ℚ)| = 100 by norm_num]
  rw [div_le_div_iff₀ (by norm_num) (by norm_num)]
  linarith

/-- `roundTick` is monotone. -/
theorem roundTick_mono {x y : ℚ} (h : x ≤ y) : roundTick x ≤ roundTick y := by
  rw [roundTick, roundTick]
  have h1 : round (100 * x) ≤ round (100 * y) := by
    rw [round_eq, round_eq]
    exact Int.floor_le_floor (by linarith)
  have h2 : ((round (100 * x) : ℤ) : ℚ) ≤ ((round (100 * y) : ℤ) : ℚ) := by
    exact_mod_cast h1
  linarith

/-- Values at least one tick apart stay strictly separated by
`roundTick`. -/
theorem roundTick_lt_of_add_le {x y : ℚ} (h : x + 1/100 ≤ y) :
    roundTick x < roundTick y := by
  rw [roundTick, roundTick]
  have h1 : round (100 * x) + 1 ≤ round (100 * y) := by
    have hy : round (100 * x + 1) ≤ round (100 * y) := by
      rw [round_eq, round_eq]
      exact Int.floor_le_floor (by linarith)
    rw [round_add_one] at hy
    omega
  have h2 : ((round (100 * x) : ℤ) : ℚ) + 1 ≤ ((round (100 * y) : ℤ) : ℚ) := by
    exact_mod_cast h1
  linarith

/-- Model of Python `str.upper()` (ASCII, which covers every string this
code base uppercases). -/
def toUpperPy (s : String) : String := String.mk (s.toList.map Char.toUpper)

/-- Model of Python `str.isupper()`: at least one cased character and
all cased characters uppercase. -/
def isUpperPy (s : String) : Bool :=
  s.toList.any Char.isAlpha && s.toList.all (fun c => !c.isAlpha || c.isUpper)

/-- Model of Python `str.endswith`. -/
def endsWithPy (s t : String) : Bool := t.toList.isSuffixOf s.toList

/-- `utils.Validator.validate_symbol`. -/
def validate_symbol (symbol : String) : Bool :=
  if symbol = "" then false
  else if !isUpperPy symbol then false
  else if symbol.toList.length < 5 then false
  else if !endsWithPy symbol "USDT" then false
  else true

/-- `utils.Validator.validate_side`. -/
def validate_side (side : String) : Bool :=
  toUpperPy side = "BUY" || toUpperPy side = "SELL"

/-- `Config.MIN_QUANTITY`. -/
def MIN_QUANTITY : ℚ := 1 / 1000

/-- `Config.MIN_PRICE`. -/
def MIN_PRICE : ℚ := 1 / 100

/-- `utils.Validator.validate_quantity`. -/
def validate_quantity (quantity : ℚ) : Bool := MIN_QUANTITY ≤ quantity

/-- `utils.Validator.validate_price`. -/
def validate_price (price : ℚ) : Bool := MIN_PRICE ≤ price

/-- `BasicBot.validate_order_params` (`price = none` models the optional
`price=None` argument, for which the price check is skipped). -/
def validate_order_params (symbol side : String) (quantity : ℚ)
    (price : Option ℚ) : Bool :=
  validate_symbol symbol && validate_side side && validate_quantity quantity &&
    (match price with
     | none => true
     | some p => validate_price p)

/-- Order side as sent to the exchange. -/
inductive Side where
  | buy
  | sell
deriving DecidableEq, Repr

/-- A limit-order placement request issued by the grid code
(`futures_create_order` with `type='LIMIT'`, `timeInForce='GTC'`). -/
structure OrderReq where
  side : Side
  price : ℚ
  quantity : ℚ
  posSide : String
deriving DecidableEq, Repr

/-- `grid_step = (upper_price - lower_price) / (grid_levels - 1)`. -/
def gridStep (lower upper : ℚ) (levels : ℕ) : ℚ :=
  (upper - lower) / ((levels : ℚ) - 1)

/-- The `i`-th grid price: `round(lower_price + i * grid_step, 2)`. -/
def gridPrice (lower upper : ℚ) (levels i : ℕ) : ℚ :=
  roundTick (lower + (i : ℚ) * gridStep lower upper levels)

/-- All grid prices, in placement order (`for i in range(grid_levels)`). -/
def gridPrices (lower upper : ℚ) (levels : ℕ) : List ℚ :=
  (List.range levels).map (gridPrice lower upper levels)

/-- The placement requests issued by the loop of
`GridBot.create_grid_orders`: a BUY limit strictly below the current
price, a SELL limit strictly above it, nothing at a level equal to it.
(A `BinanceAPIException` on an individual placement is caught and logged
in the source, so every request here is attempted regardless of earlier
failures.) -/
def grid_requests (lower upper : ℚ) (levels : ℕ) (quantity : ℚ)
    (posSide : String) (current : ℚ) : List OrderReq :=
  (List.range levels).filterMap (fun i =>
    let gp := gridPrice lower upper levels i
    if gp < current then some ⟨Side.buy, gp, quantity, posSide⟩
    else if current < gp then some ⟨Side.sell, gp, quantity, posSide⟩
    else none)

/-- `GridBot.create_grid_orders`: parameter validation followed by the
placement loop (`.error` models the `ValueError`s raised). -/
def create_grid_orders (symbol : String) (lower upper : ℚ) (levels : ℕ)
    (quantity : ℚ) (posSide : String) (current : ℚ) :
    Except String (List OrderReq) :=
  if upper ≤ lower then .error "Lower price must be less than upper price"
  else if levels < 2 then .error "Grid levels must be at least 2"
  else if !validate_order_params symbol "BUY" quantity (some lower) then
    .error "Invalid order parameters"
  else .ok (grid_requests lower upper levels quantity (toUpperPy posSide) current)

theorem validate_scenario_params :
    validate_order_params "BTCUSDT" "BUY" (1/100 : ℚ) (some 44000) = true := by
  simp only [validate_order_params, Bool.and_eq_true]
  refine ⟨⟨⟨by decide, by decide⟩, ?_⟩, ?_⟩
  · simp only [validate_quantity, MIN_QUANTITY, decide_eq_true_eq]
    norm_num
  · simp only [validate_price, MIN_PRICE, decide_eq_true_eq]
    norm_num

theorem gridPrice_scenario (i : ℕ) :
    gridPrice 44000 46000 5 i = 44000 + 500 * i := by
  have hstep : gridStep 44000 46000 5 = 500 := by
    rw [gridStep]; norm_num
  rw [gridPrice, hstep,
    show (44000 : ℚ) + (i : ℚ) * 500 = 44000 + 500 * (i : ℚ) from by ring]
  apply roundTick_eq_self _ (4400000 + 50000 * i)
  push_cast
  ring

/-- Concrete evaluation of `create_grid_orders` on the scenario plan
(lower=44000, upper=46000, levels=5, qty=0.01) at current price 45000. -/
theorem create_grid_orders_scenario_eval :
    create_grid_orders "BTCUSDT" 44000 46000 5 (1/100) "BOTH" 45000 =
      .ok [⟨Side.buy, 44000, 1/100, "BOTH"⟩, ⟨Side.buy, 44500, 1/100, "BOTH"⟩,
           ⟨Side.sell, 45500, 1/100, "BOTH"⟩, ⟨Side.sell, 46000, 1/100, "BOTH"⟩] := by
  rw [create_grid_orders, if_neg (by norm_num), if_neg (by norm_num),
    validate_scenario_params]
  simp only [Bool.not_true, Bool.false_eq_true, if_false, Except.ok.injEq]
  have e0 := gridPrice_scenario 0
  have e1 := gridPrice_scenario 1
  have e2 := gridPrice_scenario 2
  have e3 := gridPrice_scenario 3
  have e4 := gridPrice_scenario 4
  norm_num at e0 e1 e2 e3 e4
  have hBOTH : toUpperPy "BOTH" = "BOTH" := by decide
  simp only [grid_requests, List.range_succ, List.filterMap_append,
    List.filterMap_cons, List.filterMap_nil, List.range_zero,
    e0, e1, e2, e3, e4, hBOTH]
  norm_num

/-- Claim C1: `create_grid_orders` assigns each grid level strictly
below the current price a BUY limit request, each level strictly above
it a SELL limit request, and no request at a level equal to the current
price; in the scenario lower=44000, upper=46000, levels=5, price=45000
the requests are BUYs at 44000 and 44500 and SELLs at 45500 and 46000,
with no request at 45000. -/
theorem grid_side_assignment :
    (∀ lower upper : ℚ, ∀ levels : ℕ, ∀ quantity : ℚ, ∀ ps : String,
      ∀ current : ℚ, ∀ r ∈ grid_requests lower upper levels quantity ps current,
        (r.side = Side.buy ↔ r.price < current) ∧
        (r.side = Side.sell ↔ current < r.price) ∧ r.price ≠ current) ∧
    (∀ lower upper : ℚ, ∀ levels : ℕ, ∀ quantity : ℚ, ∀ ps : String,
      ∀ current : ℚ, ∀ i : ℕ, i < levels →
      (gridPrice lower upper levels i < current →
        (⟨Side.buy, gridPrice lower upper levels i, quantity, ps⟩ : OrderReq) ∈
          grid_requests lower upper levels quantity ps current) ∧
      (current < gridPrice lower upper levels i →
        (⟨Side.sell, gridPrice lower upper levels i, quantity, ps⟩ : OrderReq) ∈
          grid_requests lower upper levels quantity ps current)) ∧
    create_grid_orders "BTCUSDT" 44000 46000 5 (1/100) "BOTH" 45000 =
      .ok [⟨Side.buy, 44000, 1/100, "BOTH"⟩, ⟨Side.buy, 44500, 1/100, "BOTH"⟩,
           ⟨Side.sell, 45500, 1/100, "BOTH"⟩, ⟨Side.sell, 46000, 1/100, "BOTH"⟩] := by
  refine ⟨?_, ?_, ?_⟩
  · intro lower upper levels quantity ps current r hr
    simp only [grid_requests, List.mem_filterMap, List.mem_range] at hr
    obtain ⟨i, _, hf⟩ := hr
    by_cases h1 : gridPrice lower upper levels i < current
    · rw [if_pos h1, Option.some.injEq] at hf
      subst hf
      exact ⟨by simp [h1], by simp [lt_asymm h1], ne_of_lt h1⟩
    · by_cases h2 : current < gridPrice lower upper levels i
      · rw [if_neg h1, if_pos h2, Option.some.injEq] at hf
        subst hf
        exact ⟨by simp [h1], by simp [h2], ne_of_gt h2⟩
      · rw [if_neg h1, if_neg h2] at hf
        exact absurd hf (by simp)
  · intro lower upper levels quantity ps current i hi
    constructor
    · intro hlt
      simp only [grid_requests, List.mem_filterMap, List.mem_range]
      exact ⟨i, hi, by rw [if_pos hlt]⟩
    · intro hgt
      simp only [grid_requests, List.mem_filterMap, List.mem_range]
      refine ⟨i, hi, ?_⟩
      rw [if_neg (by exact not_lt_of_gt hgt), if_pos hgt]
  · exact create_grid_orders_scenario_eval

/-- Witness for `grid_side_assignment`: the BUY request at grid level 0
of the scenario is in the request list and its side matches. -/
theorem grid_side_assignment_witness :
    ((⟨Side.buy, gridPrice 44000 46000 5 0, 1/100, "BOTH"⟩ : OrderReq) ∈
      grid_requests 44000 46000 5 (1/100) "BOTH" 45000) ∧
    ((⟨Side.buy, gridPrice 44000 46000 5 0, 1/100, "BOTH"⟩ : OrderReq).side = Side.buy ↔
      gridPrice 44000 46000 5 0 < 45000) := by
  have hmem :=
    (grid_side_assignment.2.1 44000 46000 5 (1/100) "BOTH" 45000 0 (by norm_num)).1
      (by rw [gridPrice_scenario 0]; norm_num)
  exact ⟨hmem,
    (grid_side_assignment.1 44000 46000 5 (1/100) "BOTH" 45000 _ hmem).1⟩

/-! ### Grid reconciliation (`GridBot.monitor_and_rebalance_grid`) -/

/-- An open order as reported by `futures_get_open_orders` (only the
fields the reconciliation loop reads). -/
structure OpenOrder where
  side : Side
  price : ℚ
deriving DecidableEq, Repr

/-- `expected_buy_prices`: the set of grid prices strictly below the
current price (built in the `for i in range(grid_levels)` loop). -/
def expected_buy_prices (lower upper : ℚ) (levels : ℕ) (current : ℚ) : List ℚ :=
  (List.range levels).filterMap (fun i =>
    let gp := gridPrice lower upper levels i
    if gp < current then some gp else none)

/-- `expected_sell_prices`: the grid prices strictly above the current
price. -/
def expected_sell_prices (lower upper : ℚ) (levels : ℕ) (current : ℚ) : List ℚ :=
  (List.range levels).filterMap (fun i =>
    let gp := gridPrice lower upper levels i
    if current < gp then some gp else none)

/-- `{round(float(o['price']), 2) for o in open_orders if o['side'] == s}`. -/
def open_prices (s : Side) (orders : List OpenOrder) : List ℚ :=
  (orders.filter (fun o => decide (o.side = s))).map (fun o => roundTick o.price)

/-- Set difference `expected - open` (Python set semantics: one entry
per distinct missing price). -/
def missing_prices (expected openPs : List ℚ) : List ℚ :=
  expected.dedup.filter (fun p => decide (p ∉ openPs))

/-- The corrective placements of one reconciliation cycle: a replacement
order for every missing buy price and every missing sell price, with
`positionSide='BOTH'` hard-coded as in the source. -/
def cycle_requests (lower upper : ℚ) (levels : ℕ) (quantity current : ℚ)
    (orders : List OpenOrder) : List OrderReq :=
  (missing_prices (expected_buy_prices lower upper levels current)
      (open_prices Side.buy orders)).map (fun p => ⟨Side.buy, p, quantity, "BOTH"⟩) ++
  (missing_prices (expected_sell_prices lower upper levels current)
      (open_prices Side.sell orders)).map (fun p => ⟨Side.sell, p, quantity, "BOTH"⟩)

/-- Per-cycle gateway responses for the reconciliation loop: the result
of `get_current_price` and of `get_open_orders`.  (`BinanceAPIException`s
on individual replacement placements are caught and logged by the
source, so they do not appear in the state.) -/
structure CycleEnv where
  priceRes : Except Unit ℚ
  openRes : Except Unit (List OpenOrder)

/-- How a reconciliation run ended: all iterations performed, or an
uncaught exception from a price/open-orders fetch. -/
inductive RunOutcome where
  | completed
  | fetchError
deriving DecidableEq, Repr

/-- Observable result of a reconciliation run: number of fully executed
cycles, all placement requests issued, and how the run ended. -/
structure RunResult where
  cyclesDone : ℕ
  requests : List OrderReq
  outcome : RunOutcome
deriving DecidableEq, Repr

/-- `GridBot.monitor_and_rebalance_grid`, as a function of the cycle
environments; arguments are the current iteration index and the number
of remaining iterations.  A failed price or open-orders fetch raises
out of the `while` loop (the `except Exception` handler re-raises), so
it ends the whole run with `fetchError`. -/
def monitor_and_rebalance_grid (lower upper : ℚ) (levels : ℕ) (quantity : ℚ)
    (envs : ℕ → CycleEnv) : ℕ → ℕ → RunResult
  | _, 0 => ⟨0, [], .completed⟩
  | iter, n+1 =>
    match (envs iter).priceRes with
    | .error _ => ⟨0, [], .fetchError⟩
    | .ok current =>
      match (envs iter).openRes with
      | .error _ => ⟨0, [], .fetchError⟩
      | .ok orders =>
        let rest := monitor_and_rebalance_grid lower upper levels quantity envs (iter+1) n
        ⟨rest.cyclesDone + 1,
         cycle_requests lower upper levels quantity current orders ++ rest.requests,
         rest.outcome⟩

theorem expected_buy_fixed (lower upper : ℚ) (levels : ℕ) (current : ℚ) (p : ℚ)
    (hp : p ∈ expected_buy_prices lower upper levels current) : roundTick p = p := by
  simp only [expected_buy_prices, List.mem_filterMap, List.mem_range] at hp
  obtain ⟨i, _, hf⟩ := hp
  by_cases h : gridPrice lower upper levels i < current
  · rw [if_pos h, Option.some.injEq] at hf
    rw [← hf, gridPrice, roundTick_idem]
  · rw [if_neg h] at hf
    cases hf

theorem expected_sell_fixed (lower upper : ℚ) (levels : ℕ) (current : ℚ) (p : ℚ)
    (hp : p ∈ expected_sell_prices lower upper levels current) : roundTick p = p := by
  simp only [expected_sell_prices, List.mem_filterMap, List.mem_range] at hp
  obtain ⟨i, _, hf⟩ := hp
  by_cases h : current < gridPrice lower upper levels i
  · rw [if_pos h, Option.some.injEq] at hf
    rw [← hf, gridPrice, roundTick_idem]
  · rw [if_neg h] at hf
    cases hf

theorem open_prices_append (s : Side) (a b : List OpenOrder) :
    open_prices s (a ++ b) = open_prices s a ++ open_prices s b := by
  simp [open_prices, List.filter_append]

/-- Claim C6: grid reconciliation is idempotent when nothing has
filled.  If one cycle's corrective placements are all reported open at
their (rounded) prices and the current price is unchanged, the next
cycle computes an empty missing set on both sides and issues zero
corrective placements. -/
theorem reconcile_idempotent_nofill :
    ∀ lower upper : ℚ, ∀ levels : ℕ, ∀ quantity current : ℚ,
      ∀ orders : List OpenOrder,
      cycle_requests lower upper levels quantity current
        (orders ++ (cycle_requests lower upper levels quantity current orders).map
          (fun r => ⟨r.side, r.price⟩)) = [] := by
  intro lower upper levels quantity current orders
  rw [cycle_requests, List.append_eq_nil]
  constructor <;> rw [List.map_eq_nil_iff, missing_prices, List.filter_eq_nil_iff] <;>
    intro p hp <;>
    simp only [Bool.not_eq_true, decide_eq_false_iff_not, not_not] <;>
    rw [open_prices_append, List.mem_append]
  · have hexp : p ∈ expected_buy_prices lower upper levels current :=
      List.mem_dedup.1 hp
    by_cases hin : p ∈ open_prices Side.buy orders
    · exact Or.inl hin
    · right
      have hmiss : p ∈ missing_prices
          (expected_buy_prices lower upper levels current)
          (open_prices Side.buy orders) := by
        rw [missing_prices, List.mem_filter]
        exact ⟨hp, by simpa using hin⟩
      have hreq : (⟨Side.buy, p, quantity, "BOTH"⟩ : OrderReq) ∈
          cycle_requests lower upper levels quantity current orders := by
        rw [cycle_requests, List.mem_append]
        exact Or.inl (List.mem_map_of_mem _ hmiss)
      have hord : (⟨Side.buy, p⟩ : OpenOrder) ∈
          (cycle_requests lower upper levels quantity current orders).map
            (fun r => ⟨r.side, r.price⟩) :=
        List.mem_map_of_mem (fun r : OrderReq => (⟨r.side, r.price⟩ : OpenOrder)) hreq
      rw [open_prices]
      refine List.mem_map.2 ⟨⟨Side.buy, p⟩, ?_, ?_⟩
      · rw [List.mem_filter]
        exact ⟨hord, by simp⟩
      · exact expected_buy_fixed lower upper levels current p hexp
  · have hexp : p ∈ expected_sell_prices lower upper levels current :=
      List.mem_dedup.1 hp
    by_cases hin : p ∈ open_prices Side.sell orders
    · exact Or.inl hin
    · right
      have hmiss : p ∈ missing_prices
          (expected_sell_prices lower upper levels current)
          (open_prices Side.sell orders) := by
        rw [missing_prices, List.mem_filter]
        exact ⟨hp, by simpa using hin⟩
      have hreq : (⟨Side.sell, p, quantity, "BOTH"⟩ : OrderReq) ∈
          cycle_requests lower upper levels quantity current orders := by
        rw [cycle_requests, List.mem_append]
        exact Or.inr (List.mem_map_of_mem _ hmiss)
      have hord : (⟨Side.sell, p⟩ : OpenOrder) ∈
          (cycle_requests lower upper levels quantity current orders).map
            (fun r => ⟨r.side, r.price⟩) :=
        List.mem_map_of_mem (fun r : OrderReq => (⟨r.side, r.price⟩ : OpenOrder)) hreq
      rw [open_prices]
      refine List.mem_map.2 ⟨⟨Side.sell, p⟩, ?_, ?_⟩
      · rw [List.mem_filter]
        exact ⟨hord, by simp⟩
      · exact expected_sell_fixed lower upper levels current p hexp

/-- A cycle environment whose fetches both succeed. -/
def fetchOk (e : CycleEnv) : Prop :=
  (∃ c, e.priceRes = .ok c) ∧ ∃ o, e.openRes = .ok o

/-- Environment family for the C2 counterexample: the price fetch of the
very first cycle fails, every later cycle would succeed. -/
def envsOneFetchError : ℕ → CycleEnv :=
  fun n => if n = 0 then ⟨.error (), .ok []⟩ else ⟨.ok 45000, .ok []⟩

/-- Claim C2 counterexample: with maxCycles = 3 and a transient error on
the first price fetch, the reconciliation run terminates immediately
with zero completed cycles — the next cycle never retries, refuting
"aborts only the current cycle" and "does not terminate before
maxCycles". -/
theorem reconcile_fetch_error_counterexample :
    monitor_and_rebalance_grid 44000 46000 5 (1/100) envsOneFetchError 0 3 =
      ⟨0, [], .fetchError⟩ ∧
    (monitor_and_rebalance_grid 44000 46000 5 (1/100) envsOneFetchError 0 3).cyclesDone
      = 0 := by
  constructor <;> rfl

/-- A cycle environment whose price fetch or open-orders fetch raises a
gateway error. -/
def badFetch (e : CycleEnv) : Prop :=
  e.priceRes = .error () ∨ ((∃ c, e.priceRes = .ok c) ∧ e.openRes = .error ())

theorem monitor_badFetch_aux (lower upper : ℚ) (levels : ℕ) (quantity : ℚ)
    (envs : ℕ → CycleEnv) :
    ∀ k i n : ℕ, k < n → (∀ j, j < k → fetchOk (envs (i + j))) →
      badFetch (envs (i + k)) →
      (monitor_and_rebalance_grid lower upper levels quantity envs i n).cyclesDone
          = k ∧
      (monitor_and_rebalance_grid lower upper levels quantity envs i n).outcome
          = .fetchError := by
  intro k
  induction k with
  | zero =>
    intro i n hn _ hbad
    obtain ⟨m, rfl⟩ : ∃ m, n = m + 1 := ⟨n - 1, by omega⟩
    rcases hbad with h | ⟨⟨c, hc⟩, ho⟩
    · have h' : (envs i).priceRes = .error () := h
      rw [monitor_and_rebalance_grid, h']
      exact ⟨rfl, rfl⟩
    · have hc' : (envs i).priceRes = .ok c := hc
      have ho' : (envs i).openRes = .error () := ho
      rw [monitor_and_rebalance_grid, hc', ho']
      exact ⟨rfl, rfl⟩
  | succ m ih =>
    intro i n hn hq hbad
    obtain ⟨p, rfl⟩ : ∃ p, n = p + 1 := ⟨n - 1, by omega⟩
    obtain ⟨⟨c, hc⟩, o, ho⟩ := hq 0 (by omega)
    have hc' : (envs i).priceRes = .ok c := hc
    have ho' : (envs i).openRes = .ok o := ho
    have hsh : ∀ j, j < m → fetchOk (envs (i + 1 + j)) := by
      intro j hj
      have := hq (j + 1) (by omega)
      rwa [show i + (j + 1) = i + 1 + j by omega] at this
    have hbad' : badFetch (envs (i + 1 + m)) := by
      rwa [show i + (m + 1) = i + 1 + m by omega] at hbad
    have hrec := ih (i + 1) p (by omega) hsh hbad'
    rw [monitor_and_rebalance_grid, hc', ho']
    simp only
    exact ⟨by rw [hrec.1], hrec.2⟩

/-- Claim C2 (amended): a Gateway error on the current-price fetch or on
the open-orders fetch terminates the entire reconciliation run at that
cycle (the uncaught exception propagates out of the `while` loop), with
no further cycles and no retry: a run of `maxCycles = n` whose first `k`
cycles fetch successfully and whose cycle `k` hits a fetch error
completes exactly `k` cycles and ends in `fetchError`; a run whose
fetches all succeed performs every remaining cycle and completes. -/
theorem reconcile_fetch_error_terminates_run :
    ∀ lower upper : ℚ, ∀ levels : ℕ, ∀ quantity : ℚ, ∀ envs : ℕ → CycleEnv,
      (∀ iter n : ℕ,
        ((envs iter).priceRes = .error () →
          monitor_and_rebalance_grid lower upper levels quantity envs iter (n+1) =
            ⟨0, [], .fetchError⟩) ∧
        (∀ current, (envs iter).priceRes = .ok current →
          (envs iter).openRes = .error () →
          monitor_and_rebalance_grid lower upper levels quantity envs iter (n+1) =
            ⟨0, [], .fetchError⟩)) ∧
      (∀ iter n : ℕ, (∀ j, fetchOk (envs j)) →
        (monitor_and_rebalance_grid lower upper levels quantity envs iter n).cyclesDone
            = n ∧
        (monitor_and_rebalance_grid lower upper levels quantity envs iter n).outcome
            = .completed) ∧
      (∀ k n : ℕ, k < n → (∀ j, j < k → fetchOk (envs j)) → badFetch (envs k) →
        (monitor_and_rebalance_grid lower upper levels quantity envs 0 n).cyclesDone
            = k ∧
        (monitor_and_rebalance_grid lower upper levels quantity envs 0 n).outcome
            = .fetchError) := by
  intro lower upper levels quantity envs
  refine ⟨fun iter n => ⟨?_, ?_⟩, fun iter n => ?_, fun k n hn hq hbad => ?_⟩
  · intro h
    rw [monitor_and_rebalance_grid, h]
  · intro current hp ho
    rw [monitor_and_rebalance_grid, hp, ho]
  · intro hok
    induction n generalizing iter with
    | zero => exact ⟨rfl, rfl⟩
    | succ m ih =>
      obtain ⟨⟨c, hc⟩, ⟨o, ho⟩⟩ := hok iter
      rw [monitor_and_rebalance_grid, hc, ho]
      exact ⟨by simp [(ih (iter+1)).1], by simp [(ih (iter+1)).2]⟩
  · exact monitor_badFetch_aux lower upper levels quantity envs k 0 n hn
      (by intro j hj; simpa using hq j hj) (by simpa using hbad)

/-- Environment family whose second cycle's price fetch errors (cycle 0
succeeds with price 45000 and no open orders). -/
def envsSecondFetchError : ℕ → CycleEnv :=
  fun n => if n = 1 then ⟨.error (), .ok []⟩ else ⟨.ok 45000, .ok []⟩

/-- Witness for `reconcile_fetch_error_terminates_run`: in a 3-cycle run
whose cycle-1 price fetch errors after a successful cycle 0, the whole
run stops with exactly 1 completed cycle and outcome `fetchError`. -/
theorem reconcile_fetch_error_terminates_run_witness :
    (1 < 3 ∧ (envsSecondFetchError 1).priceRes = .error () ∧
      (envsSecondFetchError 0).priceRes = .ok 45000) ∧
    (monitor_and_rebalance_grid 44000 46000 5 (1/100) envsSecondFetchError 0 3).cyclesDone
        = 1 ∧
    (monitor_and_rebalance_grid 44000 46000 5 (1/100) envsSecondFetchError 0 3).outcome
        = .fetchError :=
  ⟨⟨by norm_num, rfl, rfl⟩,
   (reconcile_fetch_error_terminates_run 44000 46000 5 (1/100)
      envsSecondFetchError).2.2 1 3 (by norm_num)
      (fun j hj => by
        interval_cases j
        exact ⟨⟨45000, rfl⟩, ⟨[], rfl⟩⟩)
      (Or.inl rfl)⟩

theorem grid_requests_posSide (lower upper : ℚ) (levels : ℕ) (quantity : ℚ)
    (ps : String) (current : ℚ) :
    ∀ r ∈ grid_requests lower upper levels quantity ps current, r.posSide = ps := by
  intro r hr
  simp only [grid_requests, List.mem_filterMap, List.mem_range] at hr
  obtain ⟨i, _, hf⟩ := hr
  by_cases h1 : gridPrice lower upper levels i < current
  · rw [if_pos h1, Option.some.injEq] at hf
    rw [← hf]
  · by_cases h2 : current < gridPrice lower upper levels i
    · rw [if_neg h1, if_pos h2, Option.some.injEq] at hf
      rw [← hf]
    · rw [if_neg h1, if_neg h2] at hf
      cases hf

theorem cycle_requests_posSide (lower upper : ℚ) (levels : ℕ)
    (quantity current : ℚ) (orders : List OpenOrder) :
    ∀ r ∈ cycle_requests lower upper levels quantity current orders,
      r.posSide = "BOTH" := by
  intro r hr
  rw [cycle_requests, List.mem_append] at hr
  rcases hr with h | h <;>
    · obtain ⟨p, _, hp⟩ := List.mem_map.1 h
      rw [← hp]

/-- Claim C10: every replacement order placed by grid reconciliation is
sent with `positionSide='BOTH'` (hard-coded), for every input, while
`create_grid_orders` forwards its `position_side` parameter
(uppercased) to each placement. -/
theorem rebalance_position_side_both :
    (∀ lower upper : ℚ, ∀ levels : ℕ, ∀ quantity current : ℚ,
      ∀ orders : List OpenOrder,
      ∀ r ∈ cycle_requests lower upper levels quantity current orders,
        r.posSide = "BOTH") ∧
    (∀ lower upper : ℚ, ∀ levels : ℕ, ∀ quantity : ℚ, ∀ envs : ℕ → CycleEnv,
      ∀ iter n : ℕ,
      ∀ r ∈ (monitor_and_rebalance_grid lower upper levels quantity envs iter n).requests,
        r.posSide = "BOTH") ∧
    (∀ symbol : String, ∀ lower upper : ℚ, ∀ levels : ℕ, ∀ quantity : ℚ,
      ∀ ps : String, ∀ current : ℚ, ∀ reqs : List OrderReq,
      create_grid_orders symbol lower upper levels quantity ps current = .ok reqs →
      ∀ r ∈ reqs, r.posSide = toUpperPy ps) := by
  refine ⟨cycle_requests_posSide, ?_, ?_⟩
  · intro lower upper levels quantity envs iter n
    induction n generalizing iter with
    | zero => intro r hr; cases hr
    | succ m ih =>
      intro r hr
      rw [monitor_and_rebalance_grid] at hr
      rcases hc : (envs iter).priceRes with _ | c
      · rw [hc] at hr; cases hr
      · rcases ho : (envs iter).openRes with _ | o
        · rw [hc, ho] at hr; cases hr
        · rw [hc, ho] at hr
          simp only [List.mem_append] at hr
          rcases hr with h | h
          · exact cycle_requests_posSide lower upper levels quantity c o r h
          · exact ih (iter+1) r h
  · intro symbol lower upper levels quantity ps current reqs hok r hr
    rw [create_grid_orders] at hok
    split at hok
    · cases hok
    · split at hok
      · cases hok
      · split at hok
        · cases hok
        · rw [Except.ok.injEq] at hok
          subst hok
          exact grid_requests_posSide lower upper levels quantity (toUpperPy ps)
            current r hr

/-- Witness for `rebalance_position_side_both`: the scenario grid's
first request carries `positionSide='BOTH'` both via reconciliation
(hard-coded) and via `create_grid_orders` (forwarded). -/
theorem rebalance_position_side_both_witness :
    (create_grid_orders "BTCUSDT" 44000 46000 5 (1/100) "BOTH" 45000 =
      .ok [⟨Side.buy, 44000, 1/100, "BOTH"⟩, ⟨Side.buy, 44500, 1/100, "BOTH"⟩,
           ⟨Side.sell, 45500, 1/100, "BOTH"⟩, ⟨Side.sell, 46000, 1/100, "BOTH"⟩]) ∧
    (⟨Side.buy, (44000 : ℚ), 1/100, "BOTH"⟩ : OrderReq).posSide = toUpperPy "BOTH" :=
  ⟨create_grid_orders_scenario_eval,
   rebalance_position_side_both.2.2 "BTCUSDT" 44000 46000 5 (1/100) "BOTH" 45000 _
     create_grid_orders_scenario_eval _ (by simp)⟩

/-! ### Structure of the computed grid levels (spec §8, claim C5) -/

/-- Claim C5 counterexample: the plan lower=1, upper=1.004, levels=3 is
valid (`lower < upper`, `levels ≥ 2`, prices above `MIN_PRICE`), but its
grid step 0.002 is below the 0.01 tick, so all three computed levels
round to 1.00 and the set of computed PriceLevels has 1 member, not
`levels = 3`. -/
theorem grid_levels_collapse_counterexample :
    (1 : ℚ) < 251/250 ∧ 2 ≤ 3 ∧ validate_price 1 = true ∧
    gridPrices 1 (251/250) 3 = [1, 1, 1] ∧
    (gridPrices 1 (251/250) 3).toFinset.card = 1 := by
  have hstep : gridStep 1 (251/250) 3 = 1/500 := by
    rw [gridStep]; norm_num
  have g0 : gridPrice 1 (251/250) 3 0 = 1 := by
    rw [gridPrice, hstep, roundTick_eval _ 100 (by norm_num) (by norm_num)]
    norm_num
  have g1 : gridPrice 1 (251/250) 3 1 = 1 := by
    rw [gridPrice, hstep, roundTick_eval _ 100 (by norm_num) (by norm_num)]
    norm_num
  have g2 : gridPrice 1 (251/250) 3 2 = 1 := by
    rw [gridPrice, hstep, roundTick_eval _ 100 (by norm_num) (by norm_num)]
    norm_num
  have hlist : gridPrices 1 (251/250) 3 = [1, 1, 1] := by
    simp [gridPrices, List.range_succ, g0, g1, g2]
  refine ⟨by norm_num, by norm_num, ?_, hlist, ?_⟩
  · simp only [validate_price, MIN_PRICE, decide_eq_true_eq]
    norm_num
  · rw [hlist]
    simp

/-- Claim C5 (amended): for every plan with `levels ≥ 2` and
`lower < upper`, the list of computed PriceLevels has exactly `levels`
entries, each within half a tick (1/200) of `lower + i * step`, the list
is monotone with first entry `roundTick lower` and last entry
`roundTick upper` (each within half a tick of the exact bound) — and
when the step is at least one tick (1/100), the prices are strictly
increasing, so the *set* of computed PriceLevels has exactly `levels`
members. -/
theorem grid_levels_structure :
    ∀ lower upper : ℚ, ∀ levels : ℕ, 2 ≤ levels → lower < upper →
      (gridPrices lower upper levels).length = levels ∧
      (∀ i : ℕ, i < levels →
        |gridPrice lower upper levels i -
          (lower + (i : ℚ) * gridStep lower upper levels)| ≤ 1/200) ∧
      (∀ i j : ℕ, i ≤ j → j < levels →
        gridPrice lower upper levels i ≤ gridPrice lower upper levels j) ∧
      (gridPrice lower upper levels 0 = roundTick lower ∧
       gridPrice lower upper levels (levels - 1) = roundTick upper ∧
       |roundTick lower - lower| ≤ 1/200 ∧ |roundTick upper - upper| ≤ 1/200) ∧
      (1/100 ≤ gridStep lower upper levels →
        (∀ i j : ℕ, i < j → j < levels →
          gridPrice lower upper levels i < gridPrice lower upper levels j) ∧
        (gridPrices lower upper levels).toFinset.card = levels) := by
  intro lower upper levels hl hlt
  have hden : (0 : ℚ) < (levels : ℚ) - 1 := by
    have : (2 : ℚ) ≤ (levels : ℚ) := by exact_mod_cast hl
    linarith
  have hstep_pos : 0 < gridStep lower upper levels :=
    div_pos (by linarith) hden
  have hmono : ∀ i j : ℕ, i ≤ j →
      gridPrice lower upper levels i ≤ gridPrice lower upper levels j := by
    intro i j hij
    apply roundTick_mono
    have : (i : ℚ) ≤ (j : ℚ) := by exact_mod_cast hij
    nlinarith
  have hstrict : 1/100 ≤ gridStep lower upper levels →
      ∀ i j : ℕ, i < j →
      gridPrice lower upper levels i < gridPrice lower upper levels j := by
    intro hs i j hij
    apply roundTick_lt_of_add_le
    have h1 : (i : ℚ) + 1 ≤ (j : ℚ) := by exact_mod_cast hij
    nlinarith
  refine ⟨by simp [gridPrices], ?_, fun i j hij _ => hmono i j hij, ⟨?_, ?_, ?_, ?_⟩, ?_⟩
  · intro i _
    exact abs_roundTick_sub _
  · rw [gridPrice]
    norm_num
  · rw [gridPrice]
    congr 1
    have hcast : ((levels - 1 : ℕ) : ℚ) = (levels : ℚ) - 1 := by
      have : 1 ≤ levels := by omega
      push_cast [this]
      ring
    rw [hcast, gridStep]
    field_simp
  · exact abs_roundTick_sub _
  · exact abs_roundTick_sub _
  · intro hs
    refine ⟨fun i j hij _ => hstrict hs i j hij, ?_⟩
    have hnodup : (gridPrices lower upper levels).Nodup := by
      rw [gridPrices]
      refine List.Nodup.map_on ?_ (List.nodup_range levels)
      intro x _ y _ hxy
      by_contra hne
      rcases Nat.lt_or_ge x y with h | h
      · exact absurd hxy (ne_of_lt (hstrict hs x y h))
      · have : y < x := by omega
        exact absurd hxy.symm (ne_of_lt (hstrict hs y x this))
    rw [List.toFinset_card_of_nodup hnodup]
    simp [gridPrices]

/-- Witness for `grid_levels_structure`: the scenario grid
(lower=44000, upper=46000, levels=5, step=500) has five distinct
levels. -/
theorem grid_levels_structure_witness :
    2 ≤ 5 ∧ (44000 : ℚ) < 46000 ∧
    (gridPrices 44000 46000 5).length = 5 ∧
    (gridPrices 44000 46000 5).toFinset.card = 5 := by
  have h := grid_levels_structure 44000 46000 5 (by norm_num) (by norm_num)
  refine ⟨by norm_num, by norm_num, h.1, ?_⟩
  refine (h.2.2.2.2 ?_).2
  rw [gridStep]
  norm_num

/-! ### TWAP (`TWAPBot.execute_twap`, `TWAPBot.get_twap_summary`) -/

/-- An order response as returned by `futures_create_order`, reduced to
the fields the TWAP code reads back: `executedQty` and `avgPrice`
(`avgPrice = none` models a response without a truthy `avgPrice`). -/
structure ExecOrder where
  executedQty : ℚ
  avgPrice : Option ℚ
deriving DecidableEq, Repr

/-- Per-slice gateway responses: the result of the `get_current_price`
call and of the placement.  A `BinanceAPIException` from either is
caught by the per-slice handler, which logs the error and `continue`s
(skipping the inter-slice sleep). -/
structure SliceEnv where
  priceRes : Except Unit ℚ
  placeRes : Except Unit ExecOrder

/-- `order_size = total_quantity / num_orders`. -/
def order_size (total : ℚ) (num : ℕ) : ℚ := total / (num : ℚ)

/-- `interval_seconds = (duration_minutes * 60) / num_orders`. -/
def interval_seconds (durMin num : ℕ) : ℚ := ((durMin : ℚ) * 60) / (num : ℚ)

/-- Observable trace of one TWAP run: the `executed_orders` list (the
run's ledger), the inter-slice sleeps performed, and the quantities of
the placement requests actually sent to the gateway. -/
structure TwapTrace where
  executed : List ExecOrder
  sleeps : List ℚ
  requests : List ℚ
deriving DecidableEq, Repr

/-- The slice loop of `TWAPBot.execute_twap` (`for i in range(num_orders)`).
A failed price fetch aborts the slice before any placement; a failed
placement issues the request but appends nothing; a successful slice
appends its order to `executed_orders` and sleeps unless it is the
final slice. -/
def execute_twap_loop (oSize interval : ℚ) (num : ℕ) (envs : ℕ → SliceEnv) :
    ℕ → ℕ → TwapTrace
  | _, 0 => ⟨[], [], []⟩
  | i, n+1 =>
    let rest := execute_twap_loop oSize interval num envs (i+1) n
    match (envs i).priceRes with
    | .error _ => ⟨rest.executed, rest.sleeps, rest.requests⟩
    | .ok _ =>
      match (envs i).placeRes with
      | .error _ => ⟨rest.executed, rest.sleeps, oSize :: rest.requests⟩
      | .ok ord =>
        ⟨ord :: rest.executed,
         if i < num - 1 then interval :: rest.sleeps else rest.sleeps,
         oSize :: rest.requests⟩

/-- `TWAPBot.execute_twap` after its parameter validation. -/
def execute_twap (total : ℚ) (durMin num : ℕ) (envs : ℕ → SliceEnv) : TwapTrace :=
  execute_twap_loop (order_size total num) (interval_seconds durMin num) num envs 0 num

/-- The validation prelude of `TWAPBot.execute_twap` (each `.error`
models a raised `ValueError`). -/
def execute_twap_checked (symbol side : String) (total : ℚ) (durMin num : ℕ)
    (envs : ℕ → SliceEnv) : Except String TwapTrace :=
  if !validate_order_params symbol side total none then
    .error "Invalid order parameters"
  else if num < 1 then .error "Number of orders must be at least 1"
  else if durMin < 1 then .error "Duration must be at least 1 minute"
  else .ok (execute_twap total durMin num envs)

/-- The outcome of one slice: `some ord` when both the price fetch and
the placement succeeded, `none` when the slice was skipped by the
per-slice exception handler. -/
def slice_outcome (e : SliceEnv) : Option ExecOrder :=
  match e.priceRes, e.placeRes with
  | .ok _, .ok ord => some ord
  | _, _ => none

/-- Whether a slice got as far as issuing a placement request (its price
fetch succeeded). -/
def slice_attempted (e : SliceEnv) : Bool :=
  match e.priceRes with
  | .ok _ => true
  | .error _ => false

theorem execute_twap_loop_executed (oSize interval : ℚ) (num : ℕ)
    (envs : ℕ → SliceEnv) :
    ∀ n i, (execute_twap_loop oSize interval num envs i n).executed =
      ((List.range n).map (i + ·)).filterMap (fun k => slice_outcome (envs k)) := by
  intro n
  induction n with
  | zero => intro i; rfl
  | succ m ih =>
    intro i
    have hr : ((List.range (m+1)).map (i + ·)) =
        i :: ((List.range m).map ((i+1) + ·)) := by
      rw [List.range_succ_eq_map, List.map_cons, List.map_map]
      refine congrArg₂ _ (by omega) (congrArg₂ _ (funext fun k => ?_) rfl)
      simp only [Function.comp_apply]
      omega
    rw [execute_twap_loop, hr, List.filterMap_cons]
    rcases hp : (envs i).priceRes with _ | c
    · simp [slice_outcome, hp, ih (i+1)]
    · rcases hq : (envs i).placeRes with _ | ord
      · simp [slice_outcome, hp, hq, ih (i+1)]
      · simp [slice_outcome, hp, hq, ih (i+1)]

theorem execute_twap_loop_requests (oSize interval : ℚ) (num : ℕ)
    (envs : ℕ → SliceEnv) :
    ∀ n i, (execute_twap_loop oSize interval num envs i n).requests =
      ((List.range n).map (i + ·)).filterMap
        (fun k => if slice_attempted (envs k) then some oSize else none) := by
  intro n
  induction n with
  | zero => intro i; rfl
  | succ m ih =>
    intro i
    have hr : ((List.range (m+1)).map (i + ·)) =
        i :: ((List.range m).map ((i+1) + ·)) := by
      rw [List.range_succ_eq_map, List.map_cons, List.map_map]
      refine congrArg₂ _ (by omega) (congrArg₂ _ (funext fun k => ?_) rfl)
      simp only [Function.comp_apply]
      omega
    rw [execute_twap_loop, hr, List.filterMap_cons]
    rcases hp : (envs i).priceRes with _ | c
    · simp [slice_attempted, hp, ih (i+1)]
    · rcases hq : (envs i).placeRes with _ | ord
      · simp [slice_attempted, hp, hq, ih (i+1)]
      · simp [slice_attempted, hp, hq, ih (i+1)]

/-- Environment family in which every slice succeeds at price 45000. -/
def envsAllOk : ℕ → SliceEnv :=
  fun _ => ⟨.ok 45000, .ok ⟨1/50, some 45000⟩⟩

/-- Concrete evaluation of the TWAP scenario: total=0.1, duration=10
minutes, 5 slices, all placements succeeding. -/
theorem execute_twap_scenario_eval :
    execute_twap (1/10) 10 5 envsAllOk =
      ⟨List.replicate 5 ⟨1/50, some 45000⟩, List.replicate 4 120,
       List.replicate 5 (1/50)⟩ := by
  have hos : order_size (1/10) 5 = 1/50 := by
    rw [order_size]; norm_num
  have hint : interval_seconds 10 5 = 120 := by
    rw [interval_seconds]; norm_num
  rw [execute_twap, hos, hint]
  simp [execute_twap_loop, envsAllOk, List.replicate]

/-- Claim C8: every TWAP placement request carries quantity
`totalQuantity / sliceCount` (the final slice included — no remainder
redistribution) and every inter-slice sleep is
`durationSeconds / sliceCount`; the scenario total=0.1, duration=10min,
slices=5 yields 5 slices of 0.02 placed 120 seconds apart. -/
theorem twap_slice_parameters :
    (∀ total : ℚ, ∀ durMin num : ℕ, ∀ envs : ℕ → SliceEnv,
      (∀ q ∈ (execute_twap total durMin num envs).requests, q = total / (num : ℚ)) ∧
      (∀ s ∈ (execute_twap total durMin num envs).sleeps,
        s = ((durMin : ℚ) * 60) / (num : ℚ))) ∧
    order_size (1/10) 5 = 1/50 ∧
    interval_seconds 10 5 = 120 ∧
    execute_twap (1/10) 10 5 envsAllOk =
      ⟨List.replicate 5 ⟨1/50, some 45000⟩, List.replicate 4 120,
       List.replicate 5 (1/50)⟩ := by
  refine ⟨?_, by rw [order_size]; norm_num, by rw [interval_seconds]; norm_num,
    execute_twap_scenario_eval⟩
  intro total durMin num envs
  constructor
  · intro q hq
    rw [execute_twap, execute_twap_loop_requests] at hq
    obtain ⟨k, _, hk⟩ := List.mem_filterMap.1 hq
    rcases h : slice_attempted (envs k) with _ | _ <;> rw [h] at hk
    · cases hk
    · rw [if_pos rfl, Option.some.injEq] at hk
      rw [← hk, order_size]
  · suffices h : ∀ n i s, s ∈ (execute_twap_loop (order_size total num)
        (interval_seconds durMin num) num envs i n).sleeps →
        s = ((durMin : ℚ) * 60) / (num : ℚ) by
      intro s hs
      exact h num 0 s hs
    intro n
    induction n with
    | zero => intro i s hs; cases hs
    | succ m ih =>
      intro i s hs
      rw [execute_twap_loop] at hs
      rcases hp : (envs i).priceRes with _ | c
      · rw [hp] at hs
        exact ih (i+1) s hs
      · rcases hq : (envs i).placeRes with _ | ord
        · rw [hp, hq] at hs
          exact ih (i+1) s hs
        · rw [hp, hq] at hs
          simp only at hs
          by_cases hlt : i < num - 1
          · rw [if_pos hlt] at hs
            rcases List.mem_cons.1 hs with h | h
            · rw [h, interval_seconds]
            · exact ih (i+1) s h
          · rw [if_neg hlt] at hs
            exact ih (i+1) s hs

/-- Witness for `twap_slice_parameters`: the first request of the
scenario run has quantity 0.1/5. -/
theorem twap_slice_parameters_witness :
    ((1/50 : ℚ) ∈ (execute_twap (1/10) 10 5 envsAllOk).requests) ∧
    (1/50 : ℚ) = (1/10 : ℚ) / (5 : ℕ) := by
  have hmem : (1/50 : ℚ) ∈ (execute_twap (1/10) 10 5 envsAllOk).requests := by
    rw [execute_twap_scenario_eval]
    simp
  exact ⟨hmem, (twap_slice_parameters.1 (1/10) 10 5 envsAllOk).1 _ hmem⟩

/-- Environment family for the C3 counterexample: slice 0's placement
fails, every later slice succeeds. -/
def envsFirstSliceFails : ℕ → SliceEnv :=
  fun n => if n = 0 then ⟨.ok 45000, .error ()⟩
           else ⟨.ok 45000, .ok ⟨1/50, some 45000⟩⟩

/-- Claim C3 counterexample: with 2 slices and the first placement
failing, both slices are attempted (2 placement requests) but the run's
ledger (`executed_orders`) has only 1 entry — failures are not recorded
at all, refuting "one ledger entry per attempted slice". -/
theorem twap_ledger_counterexample :
    (execute_twap (1/10) 10 2 envsFirstSliceFails).requests.length = 2 ∧
    (execute_twap (1/10) 10 2 envsFirstSliceFails).executed =
      [⟨1/50, some 45000⟩] ∧
    (execute_twap (1/10) 10 2 envsFirstSliceFails).executed.length ≠ 2 := by
  have h : execute_twap (1/10) 10 2 envsFirstSliceFails =
      ⟨[⟨1/50, some 45000⟩], [], [order_size (1/10) 2, order_size (1/10) 2]⟩ := by
    rw [execute_twap]
    simp [execute_twap_loop, envsFirstSliceFails]
  rw [h]
  exact ⟨rfl, rfl, by norm_num⟩

/-- Claim C3 (amended): the ledger (`executed_orders`) records exactly
the successful slices, in order — failed slices are skipped without any
failure record — and a failed slice never aborts the schedule: every
slice whose price fetch succeeds issues its placement request, and
every successful slice's order appears in the ledger, regardless of
earlier failures. -/
theorem twap_ledger_successes_only :
    ∀ total : ℚ, ∀ durMin num : ℕ, ∀ envs : ℕ → SliceEnv,
      (execute_twap total durMin num envs).executed =
        (List.range num).filterMap (fun k => slice_outcome (envs k)) ∧
      (execute_twap total durMin num envs).requests =
        (List.range num).filterMap
          (fun k => if slice_attempted (envs k) then some (order_size total num)
                    else none) ∧
      (∀ k : ℕ, k < num → ∀ ord : ExecOrder, slice_outcome (envs k) = some ord →
        ord ∈ (execute_twap total durMin num envs).executed) := by
  intro total durMin num envs
  have he : (execute_twap total durMin num envs).executed =
      (List.range num).filterMap (fun k => slice_outcome (envs k)) := by
    rw [execute_twap, execute_twap_loop_executed]
    simp
  refine ⟨he, ?_, ?_⟩
  · rw [execute_twap, execute_twap_loop_requests]
    simp
  · intro k hk ord hord
    rw [he]
    exact List.mem_filterMap.2 ⟨k, List.mem_range.2 hk, hord⟩

/-- Witness for `twap_ledger_successes_only`: slice 1 of the
counterexample run succeeds and its order is in the ledger even though
slice 0 failed. -/
theorem twap_ledger_successes_only_witness :
    (1 < 2 ∧ slice_outcome (envsFirstSliceFails 1) = some ⟨1/50, some 45000⟩) ∧
    (⟨1/50, some 45000⟩ : ExecOrder) ∈
      (execute_twap (1/10) 10 2 envsFirstSliceFails).executed :=
  ⟨⟨by norm_num, rfl⟩,
   (twap_ledger_successes_only (1/10) 10 2 envsFirstSliceFails).2.2 1
     (by norm_num) _ rfl⟩

/-- The summary fields computed by `TWAPBot.get_twap_summary`. -/
structure TwapSummary where
  total_orders : ℕ
  total_quantity : ℚ
  average_price : ℚ
  min_price : ℚ
  max_price : ℚ
  price_range_pct : ℚ
deriving DecidableEq, Repr

/-- `TWAPBot.get_twap_summary`.  `none` models the empty dict `{}`
returned by the `if not orders` guard (a dict carrying no fields at
all); `some s` models the populated summary dict. -/
def get_twap_summary (orders : List ExecOrder) : Option TwapSummary :=
  match orders with
  | [] => none
  | _ :: _ =>
    let total_qty := (orders.map (fun o => o.executedQty)).sum
    let total_value := ((orders.filter (fun o => o.avgPrice.isSome)).map
        (fun o => o.avgPrice.getD 0 * o.executedQty)).sum
    let avg_price := if 0 < total_qty then total_value / total_qty else 0
    let prices := orders.filterMap (fun o => o.avgPrice)
    let min_price := match prices with | [] => 0 | x :: xs => xs.foldl min x
    let max_price := match prices with | [] => 0 | x :: xs => xs.foldl max x
    some ⟨orders.length, total_qty, avg_price, min_price, max_price,
      if 0 < avg_price then (max_price - min_price) / avg_price * 100 else 0⟩

/-- Claim C4 counterexample: `get_twap_summary` applied to the empty
ledger returns the empty dict (`none`) — no summary fields are present
at all, refuting "all fields present and zero". -/
theorem twap_summary_empty_counterexample :
    get_twap_summary [] = none ∧
    ∀ s : TwapSummary, get_twap_summary [] ≠ some s :=
  ⟨rfl, fun _ h => Option.noConfusion h⟩

/-- Claim C4 (amended): an empty ledger yields the empty dict (no
fields), and on every non-empty ledger whose total filled quantity is
zero the `total_qty > 0` and `avg_price > 0` guards return 0 directly,
so `average_price` and `price_range_pct` are 0 and no division by a
zero total is evaluated. -/
theorem twap_summary_zero_guarded :
    get_twap_summary [] = none ∧
    (∀ orders : List ExecOrder, ∀ s : TwapSummary,
      get_twap_summary orders = some s →
      (orders.map (fun o => o.executedQty)).sum = 0 →
      s.average_price = 0 ∧ s.price_range_pct = 0) := by
  refine ⟨rfl, ?_⟩
  intro orders s h hsum
  cases orders with
  | nil => cases h
  | cons o os =>
    rw [get_twap_summary] at h
    simp only [Option.some.injEq] at h
    subst h
    simp only [hsum, lt_irrefl, if_false, lt_self_iff_false]
    exact ⟨trivial, trivial⟩

/-- Witness for `twap_summary_zero_guarded`: a one-entry ledger with
zero filled quantity evaluates to the all-zero summary. -/
theorem twap_summary_zero_guarded_witness :
    get_twap_summary [⟨0, none⟩] = some ⟨1, 0, 0, 0, 0, 0⟩ ∧
    (([⟨0, none⟩] : List ExecOrder).map (fun o => o.executedQty)).sum = 0 ∧
    ((⟨1, 0, 0, 0, 0, 0⟩ : TwapSummary).average_price = 0 ∧
     (⟨1, 0, 0, 0, 0, 0⟩ : TwapSummary).price_range_pct = 0) := by
  have h : get_twap_summary [⟨0, none⟩] = some ⟨1, 0, 0, 0, 0, 0⟩ := by
    rw [get_twap_summary]
    simp
  exact ⟨h, by simp, twap_summary_zero_guarded.2 _ _ h (by simp)⟩

/-! ### OCO (`OCOOrderBot.place_oco_order`, `monitor_and_cancel_oco`) -/

/-- A placement request issued by `place_oco_order`
(`futures_create_order` with `reduceOnly=True`). -/
structure OcoOrderReq where
  side : String
  orderType : String
  quantity : ℚ
  price : Option ℚ
  stopPrice : Option ℚ
  posSide : String
  reduceOnly : Bool
deriving DecidableEq, Repr

/-- `OCOOrderBot.place_oco_order` up to the two placement requests it
issues: validation checks only `(symbol, side, quantity,
take_profit_price)`; on success the take-profit LIMIT request and the
stop-loss STOP_MARKET request (with `stopPrice` the raw
`stop_loss_price`) are sent.  `none` models the raised `ValueError`. -/
def place_oco_order (symbol side : String) (quantity tp sl : ℚ)
    (posSide : String) : Option (OcoOrderReq × OcoOrderReq) :=
  if validate_order_params symbol side quantity (some tp) then
    some (⟨toUpperPy side, "LIMIT", quantity, some tp, none, toUpperPy posSide, true⟩,
          ⟨toUpperPy side, "STOP_MARKET", quantity, none, some sl, toUpperPy posSide, true⟩)
  else none

/-- Claim C9: `place_oco_order` validates only symbol, side, quantity
and the take-profit price; the validation verdict is independent of
`stop_loss_price`, and the stop-loss price is forwarded to the gateway
unchecked in the STOP_MARKET leg. -/
theorem oco_stop_loss_unvalidated :
    ∀ symbol side ps : String, ∀ quantity tp sl sl' : ℚ,
      ((place_oco_order symbol side quantity tp sl ps).isSome ↔
        (place_oco_order symbol side quantity tp sl' ps).isSome) ∧
      ((place_oco_order symbol side quantity tp sl ps).isSome ↔
        validate_order_params symbol side quantity (some tp) = true) ∧
      (∀ pr : OcoOrderReq × OcoOrderReq,
        place_oco_order symbol side quantity tp sl ps = some pr →
        pr.2.stopPrice = some sl ∧ pr.2.orderType = "STOP_MARKET" ∧
        pr.2.reduceOnly = true) := by
  intro symbol side ps quantity tp sl sl'
  refine ⟨?_, ?_, ?_⟩
  · rw [place_oco_order, place_oco_order]
    by_cases h : validate_order_params symbol side quantity (some tp) = true
    · rw [if_pos h, if_pos h]
      simp
    · rw [if_neg h, if_neg h]
  · rw [place_oco_order]
    by_cases h : validate_order_params symbol side quantity (some tp) = true
    · rw [if_pos h]
      simp [h]
    · rw [if_neg h]
      simp [h]
  · intro pr hpr
    rw [place_oco_order] at hpr
    by_cases h : validate_order_params symbol side quantity (some tp) = true
    · rw [if_pos h, Option.some.injEq] at hpr
      rw [← hpr]
      exact ⟨rfl, rfl, rfl⟩
    · rw [if_neg h] at hpr
      cases hpr

/-- Witness for `oco_stop_loss_unvalidated`: a stop-loss price of −5
(negative, far below `MIN_PRICE`) passes validation untouched and is
forwarded verbatim. -/
theorem oco_stop_loss_unvalidated_witness :
    validate_price (-5 : ℚ) = false ∧
    place_oco_order "BTCUSDT" "SELL" (1/100) 46000 (-5) "BOTH" =
      some (⟨"SELL", "LIMIT", 1/100, some 46000, none, "BOTH", true⟩,
            ⟨"SELL", "STOP_MARKET", 1/100, none, some (-5), "BOTH", true⟩) ∧
    (⟨"SELL", "STOP_MARKET", 1/100, none, some (-5), "BOTH", true⟩ :
      OcoOrderReq).stopPrice = some (-5 : ℚ) := by
  have hval : validate_order_params "BTCUSDT" "SELL" (1/100 : ℚ) (some 46000) = true := by
    simp only [validate_order_params, Bool.and_eq_true]
    refine ⟨⟨⟨by decide, by decide⟩, ?_⟩, ?_⟩
    · simp only [validate_quantity, MIN_QUANTITY, decide_eq_true_eq]
      norm_num
    · simp only [validate_price, MIN_PRICE, decide_eq_true_eq]
      norm_num
  have hplace : place_oco_order "BTCUSDT" "SELL" (1/100) 46000 (-5) "BOTH" =
      some (⟨"SELL", "LIMIT", 1/100, some 46000, none, "BOTH", true⟩,
            ⟨"SELL", "STOP_MARKET", 1/100, none, some (-5), "BOTH", true⟩) := by
    rw [place_oco_order, if_pos hval]
    have h1 : toUpperPy "SELL" = "SELL" := by decide
    have h2 : toUpperPy "BOTH" = "BOTH" := by decide
    rw [h1, h2]
  refine ⟨?_, hplace, ?_⟩
  · simp only [validate_price, MIN_PRICE, decide_eq_false_iff_not]
    norm_num
  · exact (oco_stop_loss_unvalidated "BTCUSDT" "SELL" "BOTH" (1/100) 46000 (-5)
      (-5)).2.2 _ hplace |>.1

/-- Order status as reported by `futures_get_order`. -/
inductive OrderStatus where
  | NEW
  | PARTIALLY_FILLED
  | FILLED
  | CANCELED
  | EXPIRED
  | REJECTED
deriving DecidableEq, Repr

/-- Which OCO leg terminated first (the `'TP'` / `'SL'` return values of
the monitor). -/
inductive OcoLeg where
  | tp
  | sl
deriving DecidableEq, Repr

/-- Per-check gateway responses for the OCO monitor: the joint result of
the two status queries, and the outcome a cancel call would have this
cycle.  A `BinanceAPIException` from either the queries or the cancel is
caught by the per-check handler, which logs a warning and continues. -/
structure OcoCheckEnv where
  queryRes : Except Unit (OrderStatus × OrderStatus)
  cancelRes : Except Unit Unit

/-- Observable result of an OCO monitoring run: the returned value
(`some tp` = `'TP'`, `some sl` = `'SL'`, `none` = `None`) and the order
ids targeted by the cancel calls issued, in order. -/
structure MonitorResult where
  result : Option OcoLeg
  cancels : List ℕ
deriving DecidableEq, Repr

/-- `OCOOrderBot.monitor_and_cancel_oco`: poll both statuses each check;
on TP FILLED cancel the stop-loss and return `'TP'`; on SL FILLED cancel
the take-profit and return `'SL'`; if both legs are CANCELED/EXPIRED
return `None`; on a caught `BinanceAPIException` (from the queries or
from the cancel itself) continue with the next check; after `max_checks`
checks return `None`. -/
def monitor_and_cancel_oco (tpId slId : ℕ) (envs : ℕ → OcoCheckEnv) :
    ℕ → ℕ → MonitorResult
  | _, 0 => ⟨none, []⟩
  | i, n+1 =>
    match (envs i).queryRes with
    | .error _ => monitor_and_cancel_oco tpId slId envs (i+1) n
    | .ok (tpSt, slSt) =>
      if tpSt = .FILLED then
        match (envs i).cancelRes with
        | .ok _ => ⟨some .tp, [slId]⟩
        | .error _ =>
          let rest := monitor_and_cancel_oco tpId slId envs (i+1) n
          ⟨rest.result, slId :: rest.cancels⟩
      else if slSt = .FILLED then
        match (envs i).cancelRes with
        | .ok _ => ⟨some .sl, [tpId]⟩
        | .error _ =>
          let rest := monitor_and_cancel_oco tpId slId envs (i+1) n
          ⟨rest.result, tpId :: rest.cancels⟩
      else if (tpSt = .CANCELED ∨ tpSt = .EXPIRED) ∧
          (slSt = .CANCELED ∨ slSt = .EXPIRED) then ⟨none, []⟩
      else monitor_and_cancel_oco tpId slId envs (i+1) n

/-- Environment family for the C7 counterexample: TP is FILLED from
check 0 on, but the first cancel attempt fails with a gateway error
(caught and logged); the second attempt succeeds. -/
def envsCancelRetry : ℕ → OcoCheckEnv :=
  fun n => if n = 0 then ⟨.ok (.FILLED, .NEW), .error ()⟩
           else ⟨.ok (.FILLED, .NEW), .ok ()⟩

/-- Claim C7 counterexample: when the first cancel call fails with a
caught gateway error, the monitor loops and issues a second cancel for
the same sibling order id in the same run — two cancels targeted at
order 22, refuting "issues exactly one cancel ... never a second cancel
for that sibling in the same run". -/
theorem oco_double_cancel_counterexample :
    monitor_and_cancel_oco 11 22 envsCancelRetry 0 5 =
      ⟨some .tp, [22, 22]⟩ ∧
    (monitor_and_cancel_oco 11 22 envsCancelRetry 0 5).cancels.length = 2 := by
  constructor <;> rfl

/-- A check environment that keeps the monitor polling: its query
fails, or reports both legs open (neither FILLED, not both
CANCELED/EXPIRED). -/
def oco_quiet (e : OcoCheckEnv) : Prop :=
  e.queryRes = .error () ∨
  ∃ t u, e.queryRes = .ok (t, u) ∧ t ≠ .FILLED ∧ u ≠ .FILLED ∧
    ¬((t = .CANCELED ∨ t = .EXPIRED) ∧ (u = .CANCELED ∨ u = .EXPIRED))

theorem monitor_quiet_step (tpId slId : ℕ) (envs : ℕ → OcoCheckEnv) (i n : ℕ)
    (h : oco_quiet (envs i)) :
    monitor_and_cancel_oco tpId slId envs i (n+1) =
      monitor_and_cancel_oco tpId slId envs (i+1) n := by
  rcases h with h | ⟨t, u, hq, ht, hu, hb⟩
  · rw [monitor_and_cancel_oco, h]
  · rw [monitor_and_cancel_oco, hq]
    simp only []
    rw [if_neg ht, if_neg hu, if_neg hb]

theorem monitor_fill_aux (tpId slId : ℕ) (envs : ℕ → OcoCheckEnv) :
    ∀ k i n : ℕ, (∀ j, j < k → oco_quiet (envs (i + j))) → k < n →
      (∀ s, (envs (i + k)).queryRes = .ok (.FILLED, s) →
        (envs (i + k)).cancelRes = .ok () →
        monitor_and_cancel_oco tpId slId envs i n = ⟨some .tp, [slId]⟩) ∧
      (∀ t, t ≠ .FILLED → (envs (i + k)).queryRes = .ok (t, .FILLED) →
        (envs (i + k)).cancelRes = .ok () →
        monitor_and_cancel_oco tpId slId envs i n = ⟨some .sl, [tpId]⟩) := by
  intro k
  induction k with
  | zero =>
    intro i n _ hn
    obtain ⟨m, rfl⟩ : ∃ m, n = m + 1 := ⟨n - 1, by omega⟩
    constructor
    · intro s hq hc
      have hq' : (envs i).queryRes = Except.ok (OrderStatus.FILLED, s) := hq
      have hc' : (envs i).cancelRes = Except.ok () := hc
      simp [monitor_and_cancel_oco, hq', hc']
    · intro t ht hq hc
      have hq' : (envs i).queryRes = Except.ok (t, OrderStatus.FILLED) := hq
      have hc' : (envs i).cancelRes = Except.ok () := hc
      simp [monitor_and_cancel_oco, hq', hc', ht]
  | succ m ih =>
    intro i n hquiet hn
    obtain ⟨p, rfl⟩ : ∃ p, n = p + 1 := ⟨n - 1, by omega⟩
    have hstep := monitor_quiet_step tpId slId envs i p
      (by simpa using hquiet 0 (by omega))
    have hsh : ∀ j, j < m → oco_quiet (envs (i + 1 + j)) := by
      intro j hj
      have := hquiet (j + 1) (by omega)
      rwa [show i + (j + 1) = i + 1 + j by omega] at this
    have hik : i + (m + 1) = (i + 1) + m := by omega
    have hrec := ih (i + 1) p hsh (by omega)
    rw [hik]
    constructor
    · intro s hq hc
      rw [hstep]
      exact hrec.1 s hq hc
    · intro t ht hq hc
      rw [hstep]
      exact hrec.2 t ht hq hc

/-- Claim C7 (amended): once either leg's queried status is FILLED and
the cancel call succeeds, the monitor issues exactly one cancel —
targeted at the sibling leg's order id — and returns that leg's terminal
status (`'TP'` when the take-profit fills first, with the single cancel
aimed at the stop-loss id); a cancel that fails with a caught gateway
error is retried on a later check, which is the only way a second cancel
for the same sibling can occur. -/
theorem oco_single_cancel_on_fill :
    ∀ tpId slId : ℕ, ∀ envs : ℕ → OcoCheckEnv, ∀ k n : ℕ,
      (∀ j, j < k → oco_quiet (envs j)) → k < n →
      (∀ s, (envs k).queryRes = .ok (.FILLED, s) →
        (envs k).cancelRes = .ok () →
        monitor_and_cancel_oco tpId slId envs 0 n = ⟨some .tp, [slId]⟩) ∧
      (∀ t, t ≠ .FILLED → (envs k).queryRes = .ok (t, .FILLED) →
        (envs k).cancelRes = .ok () →
        monitor_and_cancel_oco tpId slId envs 0 n = ⟨some .sl, [tpId]⟩) := by
  intro tpId slId envs k n hquiet hn
  have h := monitor_fill_aux tpId slId envs k 0 n
    (by intro j hj; simpa using hquiet j hj) hn
  rwa [show 0 + k = k by omega] at h

/-- Environment family in which the TP leg is FILLED immediately and the
cancel succeeds at once. -/
def envsTpFilled : ℕ → OcoCheckEnv :=
  fun _ => ⟨.ok (.FILLED, .NEW), .ok ()⟩

/-- Witness for `oco_single_cancel_on_fill`: TP filled at check 0 with a
successful cancel yields `'TP'` and the single cancel [22] against the
stop-loss id. -/
theorem oco_single_cancel_on_fill_witness :
    (0 < 5 ∧ (envsTpFilled 0).queryRes = .ok (.FILLED, .NEW) ∧
      (envsTpFilled 0).cancelRes = .ok ()) ∧
    monitor_and_cancel_oco 11 22 envsTpFilled 0 5 = ⟨some .tp, [22]⟩ :=
  ⟨⟨by norm_num, rfl, rfl⟩,
   (oco_single_cancel_on_fill 11 22 envsTpFilled 0 5
      (fun j hj => absurd hj (by omega)) (by omega)).1 .NEW rfl rfl⟩

end BinanceBot
